import Mathlib

/-!
Shallow embedding of the live-transcriber pipeline of src/transcriber.py.

Audio frames are lists of rational samples.  The external recognition
engine is abstracted as a function from a flattened sample sequence to
either an error message or the ordered list of recognized text fragments.
Each frame event carries the wall-clock readings the worker takes while
processing it.  The snapshot file written by save_transcript_json is
modelled at the JSON-value level: serializing and writing the file is the
standard library's concern, excluded by the specification, so the snapshot
is the JSON value handed to it, fully rewritten on every save.
-/

namespace LiveTranscriber

/-- Sample rate in Hz, SAMPLE_RATE = 16000. -/
def SAMPLE_RATE : ℚ := 16000

/-- Volume below this counts as silence, SILENCE_THRESHOLD = 0.015. -/
def SILENCE_THRESHOLD : ℚ := 15 / 1000

/-- Seconds of silence that trigger transcription, SILENCE_DURATION = 1.5. -/
def SILENCE_DURATION : ℚ := 3 / 2

/-- Minimum seconds of audio to transcribe, MIN_AUDIO_LENGTH = 0.3. -/
def MIN_AUDIO_LENGTH : ℚ := 3 / 10

/-- Degenerate recognizer outputs that are suppressed by the dispatcher. -/
def NOISE_TOKENS : List String := ["you", "you.", "the", "a", "."]

/-- Sum of squares of the samples of a frame. -/
def sumSq (xs : List ℚ) : ℚ := (xs.map (fun x => x ^ 2)).sum

/-- Mean of the squared samples of a frame. -/
def mean_sq (xs : List ℚ) : ℚ := sumSq xs / (xs.length : ℚ)

/-- RMS volume of a frame, the square root of the mean square
(get_volume in the source). -/
noncomputable def get_volume (xs : List ℚ) : ℝ :=
  Real.sqrt ((mean_sq xs : ℚ) : ℝ)

/-- The worker's per-frame volume test, volume at or above the silence
threshold.  Stated in squared form so that it is executable over ℚ;
the lemma is_loud_iff_get_volume relates it to the RMS comparison the
source performs. -/
def is_loud (xs : List ℚ) : Prop := SILENCE_THRESHOLD ^ 2 ≤ mean_sq xs

instance (xs : List ℚ) : Decidable (is_loud xs) :=
  inferInstanceAs (Decidable (SILENCE_THRESHOLD ^ 2 ≤ mean_sq xs))

/-- One transcript record, a wall-clock time string and a text. -/
structure Entry where
  time : String
  text : String
deriving DecidableEq, Repr

/-- JSON values, as far as this program produces them. -/
inductive Json where
  | str : String → Json
  | bool : Bool → Json
  | arr : List Json → Json
  | obj : List (String × Json) → Json

/-- The JSON object written for one transcript entry: a time field then a
text field, in insertion order. -/
def dumpEntry (e : Entry) : Json :=
  Json.obj [("time", Json.str e.time), ("text", Json.str e.text)]

/-- The JSON value json.dump receives: the whole transcript as an ordered
array of entry objects. -/
def dump_transcript (l : List Entry) : Json :=
  Json.arr (l.map dumpEntry)

/-- Decoder for one entry object. -/
def decodeEntry : Json → Option Entry
  | Json.obj [("time", Json.str t), ("text", Json.str x)] => some ⟨t, x⟩
  | _ => none

/-- Decoder for a list of entry objects; fails if any element fails. -/
def decode_entries : List Json → Option (List Entry)
  | [] => some []
  | j :: js =>
    match decodeEntry j, decode_entries js with
    | some e, some es => some (e :: es)
    | _, _ => none

/-- Decoder for a snapshot value: an array of entry objects. -/
def decode_transcript : Json → Option (List Entry)
  | Json.arr xs => decode_entries xs
  | _ => none

/-- The mutable state the worker loop maintains: its three locals
(audio_buffer, silence_start, heard_speech) together with the global
transcript list and the snapshot file contents. -/
structure WorkerState where
  audio_buffer : List (List ℚ)
  silence_start : Option ℚ
  heard_speech : Bool
  transcript : List Entry
  snapshot : Json

/-- save_transcript_json: fully rewrite the snapshot with the entire
current transcript. -/
def save_transcript_json (s : WorkerState) : WorkerState :=
  { s with snapshot := dump_transcript s.transcript }

/-- One audio chunk taken from the queue, together with the wall clock at
the moment the worker processes it: now is the time.time reading used for
the silence timer, tstr the formatted datetime used for transcript
timestamps. -/
structure FrameEvent where
  now : ℚ
  tstr : String
  chunk : List ℚ
deriving DecidableEq

/-- What happened to a finalized utterance buffer. -/
inductive FinalResult where
  | tooShort
  | entryAdded (e : Entry)
  | noSpeech
  | engineError (msg : String)
deriving DecidableEq, Repr

/-- A finalization: the utterance buffer handed over and its outcome. -/
structure Finalization where
  buffer : List (List ℚ)
  result : FinalResult
deriving DecidableEq, Repr

/-- The abstract recognition engine: flattened samples in, either an error
or the ordered recognized text fragments out. -/
def RecModel : Type := List ℚ → Except String (List String)

/-- Python str.strip applied to the recognized text: drop leading and
trailing whitespace characters. -/
def py_strip (t : String) : String :=
  String.mk (((t.data.dropWhile Char.isWhitespace).reverse.dropWhile
    Char.isWhitespace).reverse)

/-- Python str.lower applied to the recognized text: lowercase every
character. -/
def py_lower (t : String) : String :=
  String.mk (t.data.map Char.toLower)

/-- Python str.isspace: non-empty and every character whitespace. -/
def py_isspace (t : String) : Bool :=
  !t.isEmpty && t.data.all (fun c => c.isWhitespace)

/-- The condition under which a recognized text produces a transcript
entry: truthy, not whitespace-only, and its lowercase form is not a noise
token. -/
def emit_ok (text : String) : Prop :=
  text ≠ "" ∧ ¬ py_isspace text ∧ py_lower text ∉ NOISE_TOKENS

instance (t : String) : Decidable (emit_ok t) := by
  unfold emit_ok; infer_instance

/-- The console report each finalization outcome produces, if any.  A
too-short buffer is discarded with no message; only the filtered branch
prints "(no speech detected)". -/
def report_of : FinalResult → Option String
  | FinalResult.tooShort => none
  | FinalResult.entryAdded e => some ("[" ++ e.time ++ "] " ++ e.text)
  | FinalResult.noSpeech => some "(no speech detected)"
  | FinalResult.engineError m => some ("Transcription error: " ++ m)

/-- The finalization block of transcription_worker, reached once enough
trailing silence has elapsed: if the buffer is non-empty, flatten it; if
its duration reaches the minimum, invoke the engine; on success join the
fragments with single spaces, trim, and append an entry unless the text is
filtered; an engine failure is caught and recorded.  Returns the possibly
updated state (transcript and snapshot only) and what happened. -/
def finalize_utterance (model : RecModel) (s : WorkerState) (tstr : String) :
    WorkerState × Option Finalization :=
  if 0 < s.audio_buffer.length then
    let audio_data := s.audio_buffer.flatten
    let duration : ℚ := (audio_data.length : ℚ) / SAMPLE_RATE
    if MIN_AUDIO_LENGTH ≤ duration then
      match model audio_data with
      | Except.error e => (s, some ⟨s.audio_buffer, FinalResult.engineError e⟩)
      | Except.ok segments =>
        let text := py_strip (String.intercalate " " segments)
        if emit_ok text then
          let entry : Entry := ⟨tstr, text⟩
          (save_transcript_json { s with transcript := s.transcript ++ [entry] },
            some ⟨s.audio_buffer, FinalResult.entryAdded entry⟩)
        else
          (s, some ⟨s.audio_buffer, FinalResult.noSpeech⟩)
    else
      (s, some ⟨s.audio_buffer, FinalResult.tooShort⟩)
  else
    (s, none)

/-- One iteration of the worker loop on one dequeued chunk.  At or above
threshold: buffer the chunk, mark speech heard, clear the silence timer.
Below threshold with speech heard: buffer the chunk, then either start the
silence timer, or, when the elapsed silence exceeds SILENCE_DURATION,
run the finalization block and reset buffer, timer and flag.  Below
threshold with no speech heard yet: discard the chunk. -/
def worker_step (model : RecModel) (s : WorkerState) (ev : FrameEvent) :
    WorkerState × Option Finalization :=
  if is_loud ev.chunk then
    ({ s with audio_buffer := s.audio_buffer ++ [ev.chunk],
              heard_speech := true, silence_start := none }, none)
  else if s.heard_speech then
    let s1 := { s with audio_buffer := s.audio_buffer ++ [ev.chunk] }
    match s.silence_start with
    | none => ({ s1 with silence_start := some ev.now }, none)
    | some t0 =>
      if SILENCE_DURATION < ev.now - t0 then
        let r := finalize_utterance model s1 ev.tstr
        ({ r.1 with audio_buffer := [], silence_start := none,
                    heard_speech := false }, r.2)
      else
        (s1, none)
  else
    (s, none)

/-- The worker loop over a finite schedule of frame events, collecting
every finalization it performs. -/
def transcription_worker (model : RecModel) :
    WorkerState → List FrameEvent → WorkerState × List Finalization
  | s, [] => (s, [])
  | s, ev :: evs =>
    let r := worker_step model s ev
    let rest := transcription_worker model r.1 evs
    (rest.1, r.2.toList ++ rest.2)

/-- The state a session's worker starts from: empty buffer, no timer, no
speech heard, empty transcript, snapshot freshly rewritten as the empty
array. -/
def initState : WorkerState :=
  ⟨[], none, false, [], dump_transcript []⟩

/-- save_transcript_md: the session-end export.  Skipped (none) when the
transcript is empty; otherwise a document with a title, a date header, a
separator and one time-stamped block per entry. -/
def save_transcript_md (dateStr : String) (transcript : List Entry) :
    Option String :=
  if transcript.isEmpty then none
  else some ("# Transcript\n\n**Date:** " ++ dateStr ++ "\n\n---\n\n" ++
    String.join (transcript.map
      (fun e => "**[" ++ e.time ++ "]** " ++ e.text ++ "\n\n")))

/-- The supervisor's session-end sequence: export the log (skipped when
empty), then reset the transcript to empty and rewrite the snapshot as the
empty array for the next session.  Returns the next session's log and
snapshot together with the export, if one was produced. -/
def session_end (dateStr : String) (transcript : List Entry) :
    (List Entry × Json) × Option String :=
  ((([] : List Entry), dump_transcript []), save_transcript_md dateStr transcript)

/-- The control plane's shared state: the recording flag and the two
signal events. -/
structure AppState where
  recording : Bool
  start_event : Bool
  stop_event : Bool
deriving DecidableEq, Repr

/-- An HTTP response: status code, optional JSON body, optional file
body. -/
structure HttpResponse where
  status : Nat
  jsonBody : Option Json
  fileBody : Option String

/-- send_json: a 200 response carrying a JSON body. -/
def send_json (d : Json) : HttpResponse := ⟨200, some d, none⟩

/-- The stock static file server the handler falls back to: 200 with the
file when it exists in the served directory, 404 otherwise. -/
def serve_static (files : String → Option String) (path : String) :
    HttpResponse :=
  match files path with
  | some content => ⟨200, none, some content⟩
  | none => ⟨404, none, none⟩

/-- QuietHandler.do_GET: the root and /index.html are rewritten to the
viewer asset and served statically; /api/status answers with the recording
flag; every other path falls through to the static file server. -/
def do_GET (st : AppState) (files : String → Option String) (path : String) :
    HttpResponse :=
  if path = "/" ∨ path = "/index.html" then serve_static files "/viewer.html"
  else if path = "/api/status" then
    send_json (Json.obj [("recording", Json.bool st.recording)])
  else serve_static files path

/-- QuietHandler.do_POST: /api/start sets recording and the start event,
/api/stop clears recording and sets the stop event, anything else is
404. -/
def do_POST (st : AppState) (path : String) : AppState × HttpResponse :=
  if path = "/api/start" then
    ({ st with recording := true, start_event := true },
      send_json (Json.obj [("status", Json.str "started")]))
  else if path = "/api/stop" then
    ({ st with recording := false, stop_event := true },
      send_json (Json.obj [("status", Json.str "stopped")]))
  else
    (st, ⟨404, none, none⟩)

/-- A recognition engine that always succeeds with one fragment. -/
def model0 : RecModel := fun _ => Except.ok ["hello"]

/-- A recognition engine that always fails. -/
def model_err : RecModel := fun _ => Except.error "boom"

/-- A concrete loud frame event: one sample of full amplitude at time 0. -/
def ev_loud : FrameEvent := ⟨0, "00:00:00", [1]⟩

/-- A concrete silent frame event at time 0. -/
def ev_sil1 : FrameEvent := ⟨0, "00:00:00", [0]⟩

/-- A concrete silent frame event two seconds later. -/
def ev_sil2 : FrameEvent := ⟨2, "00:00:02", [0]⟩

/-- A concrete static directory holding only the viewer asset. -/
def files0 : String → Option String :=
  fun p => if p = "/viewer.html" then some "viewer page" else none

/-- A concrete control-plane state with nothing set. -/
def st0 : AppState := ⟨false, false, false⟩

/-! ### Supporting lemmas -/

/-- The executable squared volume test agrees with comparing the RMS
volume computed by get_volume against the threshold. -/
theorem is_loud_iff_get_volume (xs : List ℚ) :
    is_loud xs ↔ ((SILENCE_THRESHOLD : ℚ) : ℝ) ≤ get_volume xs := by
  unfold is_loud get_volume
  rw [Real.le_sqrt' (by norm_num [SILENCE_THRESHOLD])]
  rw [show ((SILENCE_THRESHOLD : ℚ) : ℝ) ^ 2 = ((SILENCE_THRESHOLD ^ 2 : ℚ) : ℝ) by push_cast; ring]
  exact (Rat.cast_le (K := ℝ)).symm

theorem decodeEntry_dumpEntry (e : Entry) : decodeEntry (dumpEntry e) = some e := rfl

theorem decode_entries_map (l : List Entry) :
    decode_entries (l.map dumpEntry) = some l := by
  induction l with
  | nil => rfl
  | cons e es ih => simp [decode_entries, decodeEntry_dumpEntry, ih]

/-- Round trip: the snapshot value written for a transcript decodes back
to exactly that transcript. -/
theorem decode_dump (l : List Entry) :
    decode_transcript (dump_transcript l) = some l := by
  simp [decode_transcript, dump_transcript, decode_entries_map]

/-- The finalization block either does nothing (empty buffer), or hands
over exactly the accumulated buffer with some outcome, changing the state
only in the entry-appending branch, where the transcript gains one entry
and the snapshot is rewritten. -/
theorem finalize_shape (m : RecModel) (s : WorkerState) (t : String) :
    (s.audio_buffer = [] ∧ finalize_utterance m s t = (s, none)) ∨
    (∃ r, finalize_utterance m s t = (s, some ⟨s.audio_buffer, r⟩)) ∨
    (∃ segs, m s.audio_buffer.flatten = Except.ok segs ∧
      emit_ok (py_strip (String.intercalate " " segs)) ∧
      finalize_utterance m s t =
        (save_transcript_json { s with transcript :=
            s.transcript ++ [⟨t, py_strip (String.intercalate " " segs)⟩] },
          some ⟨s.audio_buffer,
            FinalResult.entryAdded ⟨t, py_strip (String.intercalate " " segs)⟩⟩)) := by
  unfold finalize_utterance
  by_cases h1 : 0 < s.audio_buffer.length
  · rw [if_pos h1]
    by_cases h2 : MIN_AUDIO_LENGTH ≤ ((s.audio_buffer.flatten.length : ℚ) / SAMPLE_RATE)
    · rw [if_pos h2]
      cases hm : m s.audio_buffer.flatten with
      | error e => exact Or.inr (Or.inl ⟨FinalResult.engineError e, rfl⟩)
      | ok segments =>
        by_cases h3 : emit_ok (py_strip (String.intercalate " " segments))
        · exact Or.inr (Or.inr ⟨segments, rfl, h3, by simp only [if_pos h3]⟩)
        · exact Or.inr (Or.inl ⟨FinalResult.noSpeech, by simp only [if_neg h3]⟩)
    · rw [if_neg h2]
      exact Or.inr (Or.inl ⟨FinalResult.tooShort, rfl⟩)
  · rw [if_neg h1]
    exact Or.inl ⟨List.eq_nil_of_length_eq_zero (Nat.eq_zero_of_not_pos h1), rfl⟩

theorem finalize_buffer_unchanged (m : RecModel) (s : WorkerState) (t : String) :
    (finalize_utterance m s t).1.audio_buffer = s.audio_buffer ∧
    (finalize_utterance m s t).1.silence_start = s.silence_start ∧
    (finalize_utterance m s t).1.heard_speech = s.heard_speech := by
  rcases finalize_shape m s t with ⟨_, h⟩ | ⟨r, h⟩ | ⟨segs, _, _, h⟩ <;>
    simp [h, save_transcript_json]

theorem finalize_out_buffer (m : RecModel) (s : WorkerState) (t : String)
    (fin : Finalization) (h : (finalize_utterance m s t).2 = some fin) :
    fin.buffer = s.audio_buffer := by
  rcases finalize_shape m s t with ⟨_, h1⟩ | ⟨r, h1⟩ | ⟨segs, _, _, h1⟩ <;> rw [h1] at h
  · exact absurd h (by simp)
  · cases h; rfl
  · cases h; rfl

theorem finalize_transcript_extends (m : RecModel) (s : WorkerState) (t : String) :
    ∃ r, (finalize_utterance m s t).1.transcript = s.transcript ++ r := by
  rcases finalize_shape m s t with ⟨_, h⟩ | ⟨r, h⟩ | ⟨segs, _, _, h⟩
  · exact ⟨[], by simp [h]⟩
  · exact ⟨[], by simp [h]⟩
  · exact ⟨[⟨t, py_strip (String.intercalate " " segs)⟩],
      by simp [h, save_transcript_json]⟩

theorem finalize_snapshot (m : RecModel) (s : WorkerState) (t : String)
    (h : s.snapshot = dump_transcript s.transcript) :
    (finalize_utterance m s t).1.snapshot =
      dump_transcript (finalize_utterance m s t).1.transcript := by
  rcases finalize_shape m s t with ⟨_, h1⟩ | ⟨r, h1⟩ | ⟨segs, _, _, h1⟩ <;>
    simp [h1, save_transcript_json, h]

/-- With a non-empty buffer the finalization block always hands over the
accumulated buffer with some outcome. -/
theorem finalize_out_isSome (m : RecModel) (s : WorkerState) (t : String)
    (h : s.audio_buffer ≠ []) :
    ∃ fin, (finalize_utterance m s t).2 = some fin ∧
      fin.buffer = s.audio_buffer := by
  rcases finalize_shape m s t with ⟨hn, h1⟩ | ⟨r, h1⟩ | ⟨segs, _, _, h1⟩
  · exact absurd hn h
  · exact ⟨⟨s.audio_buffer, r⟩, by rw [h1], rfl⟩
  · exact ⟨⟨s.audio_buffer,
      FinalResult.entryAdded ⟨t, py_strip (String.intercalate " " segs)⟩⟩,
      by rw [h1], rfl⟩

/-- The error branch of finalization: the engine failure is caught, the
buffer is handed over with an engineError outcome, and the state is
returned unchanged. -/
theorem finalize_error (m : RecModel) (s : WorkerState) (t : String)
    (msg : String) (hbuf : 0 < s.audio_buffer.length)
    (hdur : MIN_AUDIO_LENGTH ≤ (s.audio_buffer.flatten.length : ℚ) / SAMPLE_RATE)
    (herr : m s.audio_buffer.flatten = Except.error msg) :
    finalize_utterance m s t =
      (s, some ⟨s.audio_buffer, FinalResult.engineError msg⟩) := by
  unfold finalize_utterance
  rw [if_pos hbuf]
  dsimp only
  rw [if_pos hdur, herr]

/-! Branch equations for one worker iteration. -/

theorem worker_step_loud (m : RecModel) (s : WorkerState) (ev : FrameEvent)
    (h : is_loud ev.chunk) :
    worker_step m s ev =
      ({ s with audio_buffer := s.audio_buffer ++ [ev.chunk],
                heard_speech := true, silence_start := none }, none) := by
  unfold worker_step; rw [if_pos h]

theorem worker_step_silent_unheard (m : RecModel) (s : WorkerState)
    (ev : FrameEvent) (hs : s.heard_speech = false) (h : ¬ is_loud ev.chunk) :
    worker_step m s ev = (s, none) := by
  unfold worker_step; rw [if_neg h, if_neg (by simp [hs])]

theorem worker_step_silent_start (m : RecModel) (s : WorkerState)
    (ev : FrameEvent) (hh : s.heard_speech = true) (h : ¬ is_loud ev.chunk)
    (hn : s.silence_start = none) :
    worker_step m s ev =
      ({ s with audio_buffer := s.audio_buffer ++ [ev.chunk],
                silence_start := some ev.now }, none) := by
  unfold worker_step
  rw [if_neg h, if_pos (by simp [hh]), hn]

theorem worker_step_silent_wait (m : RecModel) (s : WorkerState)
    (ev : FrameEvent) (t0 : ℚ) (hh : s.heard_speech = true)
    (h : ¬ is_loud ev.chunk) (ht : s.silence_start = some t0)
    (hlt : ¬ SILENCE_DURATION < ev.now - t0) :
    worker_step m s ev =
      ({ s with audio_buffer := s.audio_buffer ++ [ev.chunk] }, none) := by
  unfold worker_step
  rw [if_neg h, if_pos (by simp [hh]), ht]
  simp only [if_neg hlt]

theorem worker_step_silent_finalize (m : RecModel) (s : WorkerState)
    (ev : FrameEvent) (t0 : ℚ) (hh : s.heard_speech = true)
    (h : ¬ is_loud ev.chunk) (ht : s.silence_start = some t0)
    (hgt : SILENCE_DURATION < ev.now - t0) :
    worker_step m s ev =
      ({ (finalize_utterance m
            { s with audio_buffer := s.audio_buffer ++ [ev.chunk] } ev.tstr).1
          with audio_buffer := [], silence_start := none,
               heard_speech := false },
        (finalize_utterance m
            { s with audio_buffer := s.audio_buffer ++ [ev.chunk] } ev.tstr).2) := by
  unfold worker_step
  rw [if_neg h, if_pos (by simp [hh]), ht]
  simp only [if_pos hgt]

theorem transcription_worker_nil (m : RecModel) (s : WorkerState) :
    transcription_worker m s [] = (s, []) := rfl

theorem transcription_worker_cons (m : RecModel) (s : WorkerState)
    (ev : FrameEvent) (evs : List FrameEvent) :
    transcription_worker m s (ev :: evs) =
      ((transcription_worker m (worker_step m s ev).1 evs).1,
        (worker_step m s ev).2.toList ++
          (transcription_worker m (worker_step m s ev).1 evs).2) := rfl

theorem transcription_worker_append (m : RecModel) (a b : List FrameEvent) :
    ∀ s : WorkerState,
    transcription_worker m s (a ++ b) =
      ((transcription_worker m (transcription_worker m s a).1 b).1,
        (transcription_worker m s a).2 ++
          (transcription_worker m (transcription_worker m s a).1 b).2) := by
  induction a with
  | nil => intro s; simp [transcription_worker_nil]
  | cons ev evs ih =>
    intro s
    rw [List.cons_append, transcription_worker_cons, transcription_worker_cons,
      ih (worker_step m s ev).1]
    simp [List.append_assoc]

/-- While no speech has been heard, below-threshold frames leave the
worker state untouched and produce nothing. -/
theorem run_all_silent (m : RecModel) :
    ∀ (evs : List FrameEvent) (s : WorkerState), s.heard_speech = false →
    (∀ ev ∈ evs, ¬ is_loud ev.chunk) →
    transcription_worker m s evs = (s, []) := by
  intro evs
  induction evs with
  | nil => intro s _ _; rfl
  | cons ev evs ih =>
    intro s hs hall
    rw [transcription_worker_cons,
      worker_step_silent_unheard m s ev hs (hall ev (by simp))]
    simp [ih s hs (fun e he => hall e (List.mem_cons_of_mem _ he))]

/-- Exhaustive branch case analysis for one worker iteration. -/
theorem worker_step_cases (m : RecModel) (s : WorkerState) (ev : FrameEvent) :
    (is_loud ev.chunk ∧ worker_step m s ev =
      ({ s with audio_buffer := s.audio_buffer ++ [ev.chunk],
                heard_speech := true, silence_start := none }, none)) ∨
    (¬ is_loud ev.chunk ∧ s.heard_speech = false ∧
      worker_step m s ev = (s, none)) ∨
    (¬ is_loud ev.chunk ∧ s.heard_speech = true ∧ s.silence_start = none ∧
      worker_step m s ev =
        ({ s with audio_buffer := s.audio_buffer ++ [ev.chunk],
                  silence_start := some ev.now }, none)) ∨
    (∃ t0, ¬ is_loud ev.chunk ∧ s.heard_speech = true ∧
      s.silence_start = some t0 ∧ ¬ SILENCE_DURATION < ev.now - t0 ∧
      worker_step m s ev =
        ({ s with audio_buffer := s.audio_buffer ++ [ev.chunk] }, none)) ∨
    (∃ t0, ¬ is_loud ev.chunk ∧ s.heard_speech = true ∧
      s.silence_start = some t0 ∧ SILENCE_DURATION < ev.now - t0 ∧
      worker_step m s ev =
        ({ (finalize_utterance m
              { s with audio_buffer := s.audio_buffer ++ [ev.chunk] } ev.tstr).1
            with audio_buffer := [], silence_start := none,
                 heard_speech := false },
          (finalize_utterance m
              { s with audio_buffer := s.audio_buffer ++ [ev.chunk] } ev.tstr).2)) := by
  by_cases h : is_loud ev.chunk
  · exact Or.inl ⟨h, worker_step_loud m s ev h⟩
  · by_cases hh : s.heard_speech = true
    · rcases Option.eq_none_or_eq_some s.silence_start with ht | ⟨t0, ht⟩
      · exact Or.inr (Or.inr (Or.inl ⟨h, hh, ht,
          worker_step_silent_start m s ev hh h ht⟩))
      · by_cases hgt : SILENCE_DURATION < ev.now - t0
        · exact Or.inr (Or.inr (Or.inr (Or.inr ⟨t0, h, hh, ht, hgt,
            worker_step_silent_finalize m s ev t0 hh h ht hgt⟩)))
        · exact Or.inr (Or.inr (Or.inr (Or.inl ⟨t0, h, hh, ht, hgt,
            worker_step_silent_wait m s ev t0 hh h ht hgt⟩)))
    · have hf : s.heard_speech = false := by simpa using hh
      exact Or.inr (Or.inl ⟨h, hf, worker_step_silent_unheard m s ev hf h⟩)

/-- One iteration keeps the snapshot equal to the serialized transcript. -/
theorem step_snapshot (m : RecModel) (s : WorkerState) (ev : FrameEvent)
    (h : s.snapshot = dump_transcript s.transcript) :
    (worker_step m s ev).1.snapshot =
      dump_transcript (worker_step m s ev).1.transcript := by
  rcases worker_step_cases m s ev with
    ⟨_, he⟩ | ⟨_, _, he⟩ | ⟨_, _, _, he⟩ | ⟨t0, _, _, _, _, he⟩ |
    ⟨t0, _, _, _, _, he⟩ <;> rw [he] <;> simp [h]
  exact finalize_snapshot m _ ev.tstr (by simp [h])

/-- The whole run keeps the snapshot equal to the serialized transcript. -/
theorem run_snapshot (m : RecModel) :
    ∀ (evs : List FrameEvent) (s : WorkerState),
    s.snapshot = dump_transcript s.transcript →
    (transcription_worker m s evs).1.snapshot =
      dump_transcript (transcription_worker m s evs).1.transcript := by
  intro evs
  induction evs with
  | nil => intro s h; exact h
  | cons ev evs ih =>
    intro s h
    rw [transcription_worker_cons]
    exact ih (worker_step m s ev).1 (step_snapshot m s ev h)

/-- One iteration only ever appends to the transcript. -/
theorem step_transcript_extends (m : RecModel) (s : WorkerState)
    (ev : FrameEvent) :
    ∃ r, (worker_step m s ev).1.transcript = s.transcript ++ r := by
  rcases worker_step_cases m s ev with
    ⟨_, he⟩ | ⟨_, _, he⟩ | ⟨_, _, _, he⟩ | ⟨t0, _, _, _, _, he⟩ |
    ⟨t0, _, _, _, _, he⟩ <;> rw [he]
  · exact ⟨[], by simp⟩
  · exact ⟨[], by simp⟩
  · exact ⟨[], by simp⟩
  · exact ⟨[], by simp⟩
  · rcases finalize_transcript_extends m
      { s with audio_buffer := s.audio_buffer ++ [ev.chunk] } ev.tstr with ⟨r, hr⟩
    exact ⟨r, by simpa using hr⟩

/-- The whole run only ever appends to the transcript. -/
theorem run_transcript_extends (m : RecModel) :
    ∀ (evs : List FrameEvent) (s : WorkerState),
    ∃ r, (transcription_worker m s evs).1.transcript = s.transcript ++ r := by
  intro evs
  induction evs with
  | nil => intro s; exact ⟨[], by simp [transcription_worker_nil]⟩
  | cons ev evs ih =>
    intro s
    rw [transcription_worker_cons]
    rcases step_transcript_extends m s ev with ⟨r1, h1⟩
    rcases ih (worker_step m s ev).1 with ⟨r2, h2⟩
    exact ⟨r1 ++ r2, by rw [h2, h1, List.append_assoc]⟩

/-- Every chunk in the post-step buffer, and every chunk of a buffer the
step hands to finalization, came from the pre-step buffer or is the frame
just processed. -/
theorem step_buffer_origin (m : RecModel) (s : WorkerState) (ev : FrameEvent) :
    (∀ c ∈ (worker_step m s ev).1.audio_buffer,
      c ∈ s.audio_buffer ∨ c = ev.chunk) ∧
    (∀ fin, (worker_step m s ev).2 = some fin →
      ∀ c ∈ fin.buffer, c ∈ s.audio_buffer ∨ c = ev.chunk) := by
  rcases worker_step_cases m s ev with
    ⟨_, he⟩ | ⟨_, _, he⟩ | ⟨_, _, _, he⟩ | ⟨t0, _, _, _, _, he⟩ |
    ⟨t0, _, _, _, _, he⟩ <;> rw [he]
  · constructor
    · intro c hc; simpa using hc
    · intro fin hfin; exact absurd hfin (by simp)
  · constructor
    · intro c hc; exact Or.inl hc
    · intro fin hfin; exact absurd hfin (by simp)
  · constructor
    · intro c hc; simpa using hc
    · intro fin hfin; exact absurd hfin (by simp)
  · constructor
    · intro c hc; simpa using hc
    · intro fin hfin; exact absurd hfin (by simp)
  · constructor
    · intro c hc; exact absurd hc (by simp)
    · intro fin hfin c hc
      have hb := finalize_out_buffer m
        { s with audio_buffer := s.audio_buffer ++ [ev.chunk] } ev.tstr fin
        (by simpa using hfin)
      rw [show fin.buffer = s.audio_buffer ++ [ev.chunk] from by simpa using hb] at hc
      simpa using hc

/-- Every chunk in the final buffer, and every chunk of every finalized
utterance buffer of a run, came from the initial buffer or from the input
frame events. -/
theorem run_buffer_origin (m : RecModel) :
    ∀ (evs : List FrameEvent) (s : WorkerState),
    (∀ c ∈ (transcription_worker m s evs).1.audio_buffer,
      c ∈ s.audio_buffer ∨ c ∈ evs.map FrameEvent.chunk) ∧
    (∀ fin ∈ (transcription_worker m s evs).2,
      ∀ c ∈ fin.buffer, c ∈ s.audio_buffer ∨ c ∈ evs.map FrameEvent.chunk) := by
  intro evs
  induction evs with
  | nil =>
    intro s
    constructor
    · intro c hc; exact Or.inl hc
    · intro fin hfin; exact absurd hfin (by simp [transcription_worker_nil])
  | cons ev evs ih =>
    intro s
    rw [transcription_worker_cons]
    have hstep := step_buffer_origin m s ev
    have hih := ih (worker_step m s ev).1
    have hlift : ∀ c, c ∈ (worker_step m s ev).1.audio_buffer ∨
        c ∈ evs.map FrameEvent.chunk →
        c ∈ s.audio_buffer ∨ c ∈ (ev :: evs).map FrameEvent.chunk := by
      intro c hc
      rcases hc with hc | hc
      · rcases hstep.1 c hc with hc1 | hc1
        · exact Or.inl hc1
        · exact Or.inr (by simp [hc1])
      · exact Or.inr (by simp [hc])
    constructor
    · intro c hc
      exact hlift c (hih.1 c hc)
    · intro fin hfin c hc
      have hfin2 : (worker_step m s ev).2 = some fin ∨
          fin ∈ (transcription_worker m (worker_step m s ev).1 evs).2 := by
        simpa using hfin
      rcases hfin2 with hf | hf
      · rcases hstep.2 fin hf c hc with hc1 | hc1
        · exact Or.inl hc1
        · exact Or.inr (by simp [hc1])
      · exact hlift c (hih.2 fin hf c hc)

/-- One iteration preserves: if speech has been heard, the buffer is
non-empty. -/
theorem step_heard_nonempty (m : RecModel) (s : WorkerState) (ev : FrameEvent)
    (h : s.heard_speech = true → s.audio_buffer ≠ []) :
    (worker_step m s ev).1.heard_speech = true →
    (worker_step m s ev).1.audio_buffer ≠ [] := by
  rcases worker_step_cases m s ev with
    ⟨_, he⟩ | ⟨_, hh, he⟩ | ⟨_, hh, _, he⟩ | ⟨t0, _, hh, _, _, he⟩ |
    ⟨t0, _, hh, _, _, he⟩ <;> rw [he] <;> intro hnow <;> simp_all

/-- The whole run preserves: if speech has been heard, the buffer is
non-empty. -/
theorem run_heard_nonempty (m : RecModel) :
    ∀ (evs : List FrameEvent) (s : WorkerState),
    (s.heard_speech = true → s.audio_buffer ≠ []) →
    ((transcription_worker m s evs).1.heard_speech = true →
      (transcription_worker m s evs).1.audio_buffer ≠ []) := by
  intro evs
  induction evs with
  | nil => intro s h; exact h
  | cons ev evs ih =>
    intro s h
    rw [transcription_worker_cons]
    exact ih (worker_step m s ev).1 (step_heard_nonempty m s ev h)

/-- A finalization is produced only while processing a below-threshold
frame after speech was observed; its buffer is the accumulated buffer
plus that frame, and the post-step engine state is fully reset. -/
theorem step_out_some (m : RecModel) (s : WorkerState) (ev : FrameEvent)
    (fin : Finalization) (h : (worker_step m s ev).2 = some fin) :
    ¬ is_loud ev.chunk ∧ s.heard_speech = true ∧
    fin.buffer = s.audio_buffer ++ [ev.chunk] ∧
    (worker_step m s ev).1.audio_buffer = [] ∧
    (worker_step m s ev).1.silence_start = none ∧
    (worker_step m s ev).1.heard_speech = false := by
  rcases worker_step_cases m s ev with
    ⟨hl, he⟩ | ⟨hl, hh, he⟩ | ⟨hl, hh, _, he⟩ | ⟨t0, hl, hh, _, _, he⟩ |
    ⟨t0, hl, hh, ht, hgt, he⟩ <;> rw [he] at h ⊢
  · exact absurd h (by simp)
  · exact absurd h (by simp)
  · exact absurd h (by simp)
  · exact absurd h (by simp)
  · refine ⟨hl, hh, ?_, by simp, by simp, by simp⟩
    have hb := finalize_out_buffer m
      { s with audio_buffer := s.audio_buffer ++ [ev.chunk] } ev.tstr fin
      (by simpa using h)
    simpa using hb

/-- The success branch of finalization: once the engine returns fragments,
the joined and trimmed text either passes the filter and is appended (with
the snapshot rewritten), or is filtered and nothing is appended. -/
theorem finalize_ok (m : RecModel) (s : WorkerState) (t : String)
    (segs : List String) (hbuf : 0 < s.audio_buffer.length)
    (hdur : MIN_AUDIO_LENGTH ≤ (s.audio_buffer.flatten.length : ℚ) / SAMPLE_RATE)
    (hok : m s.audio_buffer.flatten = Except.ok segs) :
    (emit_ok (py_strip (String.intercalate " " segs)) →
      finalize_utterance m s t =
        (save_transcript_json { s with transcript :=
            s.transcript ++ [⟨t, py_strip (String.intercalate " " segs)⟩] },
          some ⟨s.audio_buffer,
            FinalResult.entryAdded ⟨t, py_strip (String.intercalate " " segs)⟩⟩)) ∧
    (¬ emit_ok (py_strip (String.intercalate " " segs)) →
      finalize_utterance m s t =
        (s, some ⟨s.audio_buffer, FinalResult.noSpeech⟩)) := by
  unfold finalize_utterance
  rw [if_pos hbuf]
  dsimp only
  rw [if_pos hdur, hok]
  constructor
  · intro hemit; dsimp only; rw [if_pos hemit]
  · intro hemit; dsimp only; rw [if_neg hemit]

/-- The too-short branch of finalization: the buffer is handed over with a
tooShort outcome and the state is returned unchanged, for every engine. -/
theorem finalize_tooShort (m : RecModel) (s : WorkerState) (t : String)
    (hbuf : 0 < s.audio_buffer.length)
    (hshort : ¬ MIN_AUDIO_LENGTH ≤ (s.audio_buffer.flatten.length : ℚ) / SAMPLE_RATE) :
    finalize_utterance m s t =
      (s, some ⟨s.audio_buffer, FinalResult.tooShort⟩) := by
  unfold finalize_utterance
  rw [if_pos hbuf]
  dsimp only
  rw [if_neg hshort]

/-! Concrete numeric facts about the sample frames, proved once and used
as explicit terms when instantiating the claim theorems. -/

theorem loud_ev_loud : is_loud ev_loud.chunk := by
  norm_num [is_loud, mean_sq, sumSq, SILENCE_THRESHOLD, ev_loud]

theorem not_loud_ev_sil1 : ¬ is_loud ev_sil1.chunk := by
  norm_num [is_loud, mean_sq, sumSq, SILENCE_THRESHOLD, ev_sil1]

theorem not_loud_ev_sil2 : ¬ is_loud ev_sil2.chunk := by
  norm_num [is_loud, mean_sq, sumSq, SILENCE_THRESHOLD, ev_sil2]

theorem expired_sil2 : SILENCE_DURATION < ev_sil2.now - 0 := by
  norm_num [SILENCE_DURATION, ev_sil2]

theorem all_sil1 : ∀ ev ∈ [ev_sil1], ¬ is_loud ev.chunk := by
  intro ev h
  rw [List.mem_singleton] at h
  subst h
  exact not_loud_ev_sil1

theorem all_sil12 : ∀ ev ∈ [ev_sil1, ev_sil2], ¬ is_loud ev.chunk := by
  intro ev h
  rcases List.mem_cons.mp h with h1 | h1
  · subst h1; exact not_loud_ev_sil1
  · rw [List.mem_singleton] at h1; subst h1; exact not_loud_ev_sil2

theorem buf_one_pos : 0 < ([[(0 : ℚ)]] : List (List ℚ)).length := by norm_num

theorem short_one :
    ¬ MIN_AUDIO_LENGTH ≤
      ((([[(0 : ℚ)]] : List (List ℚ)).flatten.length : ℚ) / SAMPLE_RATE) := by
  rw [show ([[(0 : ℚ)]] : List (List ℚ)).flatten = [(0 : ℚ)] from by
    rw [List.flatten_cons, List.flatten_nil, List.append_nil]]
  norm_num [MIN_AUDIO_LENGTH, SAMPLE_RATE]

theorem buf_rep_pos : 0 < ([List.replicate 4800 (0 : ℚ)] : List (List ℚ)).length := by
  norm_num

theorem dur_rep_ok :
    MIN_AUDIO_LENGTH ≤
      ((([List.replicate 4800 (0 : ℚ)] : List (List ℚ)).flatten.length : ℚ) /
        SAMPLE_RATE) := by
  rw [show ([List.replicate 4800 (0 : ℚ)] : List (List ℚ)).flatten =
      List.replicate 4800 (0 : ℚ) from by
    rw [List.flatten_cons, List.flatten_nil, List.append_nil]]
  rw [List.length_replicate]
  norm_num [MIN_AUDIO_LENGTH, SAMPLE_RATE]

theorem emit_ok_hello : emit_ok (py_strip (String.intercalate " " ["hello"])) := by decide

theorem dur_rep_chunk_ok :
    MIN_AUDIO_LENGTH ≤
      (((([List.replicate 4800 (0 : ℚ)] : List (List ℚ)) ++
        [ev_sil2.chunk]).flatten.length : ℚ) / SAMPLE_RATE) := by
  rw [show (([List.replicate 4800 (0 : ℚ)] : List (List ℚ)) ++
      [ev_sil2.chunk]).flatten = List.replicate 4800 (0 : ℚ) ++ ev_sil2.chunk from by
    rw [List.cons_append, List.nil_append, List.flatten_cons, List.flatten_cons,
      List.flatten_nil, List.append_nil]]
  rw [List.length_append, List.length_replicate]
  norm_num [MIN_AUDIO_LENGTH, SAMPLE_RATE, ev_sil2]

/-! ### Claims -/

/-- C1: After speech has been observed, a frame below the silence
threshold is still buffered and starts (timer none becomes some now) or
continues the silence timer; a frame at or above the threshold is
buffered and cancels the silence timer; and when the elapsed silence
exceeds SILENCE_DURATION the accumulated utterance buffer, including the
current frame, is finalized and handed to dispatch, after which the
engine state is reset to awaiting speech with an empty buffer. -/
theorem c1_segmentation_after_speech (m : RecModel) (s : WorkerState)
    (ev : FrameEvent) (hh : s.heard_speech = true) :
    (is_loud ev.chunk → worker_step m s ev =
      ({ s with audio_buffer := s.audio_buffer ++ [ev.chunk],
                heard_speech := true, silence_start := none }, none)) ∧
    (¬ is_loud ev.chunk → s.silence_start = none → worker_step m s ev =
      ({ s with audio_buffer := s.audio_buffer ++ [ev.chunk],
                silence_start := some ev.now }, none)) ∧
    (∀ t0, ¬ is_loud ev.chunk → s.silence_start = some t0 →
      ¬ SILENCE_DURATION < ev.now - t0 → worker_step m s ev =
      ({ s with audio_buffer := s.audio_buffer ++ [ev.chunk] }, none)) ∧
    (∀ t0, ¬ is_loud ev.chunk → s.silence_start = some t0 →
      SILENCE_DURATION < ev.now - t0 →
      ∃ fin, (worker_step m s ev).2 = some fin ∧
        fin.buffer = s.audio_buffer ++ [ev.chunk] ∧
        (worker_step m s ev).1.audio_buffer = [] ∧
        (worker_step m s ev).1.silence_start = none ∧
        (worker_step m s ev).1.heard_speech = false) := by
  refine ⟨fun h => worker_step_loud m s ev h,
          fun h hn => worker_step_silent_start m s ev hh h hn,
          fun t0 h ht hlt => worker_step_silent_wait m s ev t0 hh h ht hlt,
          fun t0 h ht hgt => ?_⟩
  rw [worker_step_silent_finalize m s ev t0 hh h ht hgt]
  obtain ⟨fin, hfin, hb⟩ := finalize_out_isSome m
    { s with audio_buffer := s.audio_buffer ++ [ev.chunk] } ev.tstr (by simp)
  exact ⟨fin, by simpa using hfin, by simpa using hb, by simp, by simp, by simp⟩

/-- Witness for C1: a concrete state with speech observed and an expired
silence timer finalizes, hands over the buffer, and resets. -/
theorem c1_witness :
    ∃ fin, (worker_step model0
        ⟨[[1], [0]], some 0, true, [], dump_transcript []⟩ ev_sil2).2 = some fin ∧
      fin.buffer = [[1], [0]] ++ [ev_sil2.chunk] ∧
      (worker_step model0
        ⟨[[1], [0]], some 0, true, [], dump_transcript []⟩ ev_sil2).1.audio_buffer = [] ∧
      (worker_step model0
        ⟨[[1], [0]], some 0, true, [], dump_transcript []⟩ ev_sil2).1.silence_start = none ∧
      (worker_step model0
        ⟨[[1], [0]], some 0, true, [], dump_transcript []⟩ ev_sil2).1.heard_speech = false :=
  (c1_segmentation_after_speech model0
    ⟨[[1], [0]], some 0, true, [], dump_transcript []⟩ ev_sil2 rfl).2.2.2 0
    not_loud_ev_sil2 rfl expired_sil2

/-- C2: frames arriving before any speech has been observed and lying
below the threshold are discarded: the run over a silent prolog followed
by the remaining input equals the run over the remaining input alone, and
every chunk of every dispatched utterance buffer comes from the remaining
input. -/
theorem c2_pre_speech_discard (m : RecModel) (pre rest : List FrameEvent)
    (hpre : ∀ ev ∈ pre, ¬ is_loud ev.chunk) :
    transcription_worker m initState (pre ++ rest) =
      transcription_worker m initState rest ∧
    ∀ fin ∈ (transcription_worker m initState (pre ++ rest)).2,
      ∀ c ∈ fin.buffer, c ∈ rest.map FrameEvent.chunk := by
  have h1 : transcription_worker m initState pre = (initState, []) :=
    run_all_silent m pre initState rfl hpre
  have heq : transcription_worker m initState (pre ++ rest) =
      transcription_worker m initState rest := by
    rw [transcription_worker_append m pre rest initState, h1]
    simp
  refine ⟨heq, ?_⟩
  intro fin hfin c hc
  rw [heq] at hfin
  rcases (run_buffer_origin m rest initState).2 fin hfin c hc with h | h
  · exact absurd h (by simp [initState])
  · exact h

/-- Witness for C2: one silent frame then one loud frame. -/
theorem c2_witness :
    transcription_worker model0 initState ([ev_sil1] ++ [ev_loud]) =
      transcription_worker model0 initState [ev_loud] ∧
    ∀ fin ∈ (transcription_worker model0 initState ([ev_sil1] ++ [ev_loud])).2,
      ∀ c ∈ fin.buffer, c ∈ [ev_loud].map FrameEvent.chunk :=
  c2_pre_speech_discard model0 [ev_sil1] [ev_loud] all_sil1

/-- C3: for an all-silent input the worker ends in its initial state, the
transcript log stays empty, and no finalization is ever produced, so the
recognition engine (universally quantified here) is never invoked. -/
theorem c3_all_silence (m : RecModel) (evs : List FrameEvent)
    (hsil : ∀ ev ∈ evs, ¬ is_loud ev.chunk) :
    transcription_worker m initState evs = (initState, []) ∧
    (transcription_worker m initState evs).1.transcript = [] ∧
    (transcription_worker m initState evs).2 = [] := by
  have h := run_all_silent m evs initState rfl hsil
  exact ⟨h, by rw [h]; rfl, by rw [h]⟩

/-- Witness for C3: two concrete silent frames. -/
theorem c3_witness :
    transcription_worker model0 initState [ev_sil1, ev_sil2] = (initState, []) ∧
    (transcription_worker model0 initState [ev_sil1, ev_sil2]).1.transcript = [] ∧
    (transcription_worker model0 initState [ev_sil1, ev_sil2]).2 = [] :=
  c3_all_silence model0 [ev_sil1, ev_sil2] all_sil12

/-- Counterexample for C4: a concrete run (one loud single-sample frame,
then trailing silence past the threshold) finalizes a buffer of duration
3/16000 s < 0.3 s.  It is discarded, the transcript stays empty, but the
run emits no console report at all — in particular no "(no speech
detected)" event, contrary to the claim's reporting clause. -/
theorem c4_counterexample :
    (transcription_worker model0 initState [ev_loud, ev_sil1, ev_sil2]).2 =
      [⟨[[1], [0], [0]], FinalResult.tooShort⟩] ∧
    (transcription_worker model0 initState [ev_loud, ev_sil1, ev_sil2]).1.transcript = [] ∧
    ((transcription_worker model0 initState [ev_loud, ev_sil1, ev_sil2]).2.filterMap
      (fun fin => report_of fin.result)) = [] := by
  have h1 : worker_step model0 initState ev_loud =
      (⟨[[1]], none, true, [], dump_transcript []⟩, none) := by
    rw [worker_step_loud model0 initState ev_loud loud_ev_loud]
    rfl
  have h2 : worker_step model0 ⟨[[1]], none, true, [], dump_transcript []⟩ ev_sil1 =
      (⟨[[1], [0]], some 0, true, [], dump_transcript []⟩, none) := by
    rw [worker_step_silent_start model0 ⟨[[1]], none, true, [], dump_transcript []⟩
      ev_sil1 rfl not_loud_ev_sil1 rfl]
    rfl
  have hf : finalize_utterance model0
      ⟨[[1], [0], [0]], some 0, true, [], dump_transcript []⟩ "00:00:02" =
      (⟨[[1], [0], [0]], some 0, true, [], dump_transcript []⟩,
        some ⟨[[1], [0], [0]], FinalResult.tooShort⟩) :=
    finalize_tooShort model0 ⟨[[1], [0], [0]], some 0, true, [], dump_transcript []⟩
      "00:00:02" (by norm_num) (by
        rw [show ([[1], [0], [0]] : List (List ℚ)).flatten = [1, 0, 0] from by
          rw [List.flatten_cons, List.flatten_cons, List.flatten_cons,
            List.flatten_nil, List.append_nil]
          rfl]
        norm_num [MIN_AUDIO_LENGTH, SAMPLE_RATE])
  have h3 : worker_step model0 ⟨[[1], [0]], some 0, true, [], dump_transcript []⟩
      ev_sil2 =
      (⟨[], none, false, [], dump_transcript []⟩,
        some ⟨[[1], [0], [0]], FinalResult.tooShort⟩) := by
    rw [worker_step_silent_finalize model0
      ⟨[[1], [0]], some 0, true, [], dump_transcript []⟩ ev_sil2 0 rfl
      not_loud_ev_sil2 rfl expired_sil2]
    simp [ev_sil2, hf]
  refine ⟨?_, ?_, ?_⟩ <;>
    simp [transcription_worker_cons, transcription_worker_nil, h1, h2, h3,
      Option.toList, report_of]

/-- C4 as amended: a finalized utterance buffer shorter than
MIN_AUDIO_LENGTH is discarded without invoking the recognition engine
(the equation holds for every engine m) and without appending a
transcript entry (the state is unchanged); it is discarded silently — the
tooShort outcome carries no report — and it is not treated as an error. -/
theorem c4_short_discarded_silently (m : RecModel) (s : WorkerState)
    (tstr : String) (hbuf : 0 < s.audio_buffer.length)
    (hshort : ¬ MIN_AUDIO_LENGTH ≤ (s.audio_buffer.flatten.length : ℚ) / SAMPLE_RATE) :
    finalize_utterance m s tstr =
      (s, some ⟨s.audio_buffer, FinalResult.tooShort⟩) ∧
    report_of FinalResult.tooShort = none := by
  exact ⟨finalize_tooShort m s tstr hbuf hshort, rfl⟩

/-- Witness for C4 as amended. -/
theorem c4_witness :
    finalize_utterance model0 ⟨[[0]], none, true, [], dump_transcript []⟩ "10:00:00" =
      (⟨[[0]], none, true, [], dump_transcript []⟩,
        some ⟨[[0]], FinalResult.tooShort⟩) ∧
    report_of FinalResult.tooShort = none :=
  c4_short_discarded_silently model0 ⟨[[0]], none, true, [], dump_transcript []⟩
    "10:00:00" buf_one_pos short_one

/-- C5: once the engine has returned fragments for a long-enough buffer,
an entry is appended exactly when the fragments joined with single spaces
and trimmed give a text that is non-empty, not whitespace-only, and whose
lowercase form is no configured noise token (emit_ok); and in every case
where no entry is appended the transcript is unchanged — moreover any
transcript change at finalization is such an append of the filtered
text. -/
theorem c5_entry_append_filter (m : RecModel) (s : WorkerState) (tstr : String) :
    (∀ segs, 0 < s.audio_buffer.length →
      MIN_AUDIO_LENGTH ≤ (s.audio_buffer.flatten.length : ℚ) / SAMPLE_RATE →
      m s.audio_buffer.flatten = Except.ok segs →
      (emit_ok (py_strip (String.intercalate " " segs)) →
        finalize_utterance m s tstr =
          (save_transcript_json { s with transcript :=
              s.transcript ++ [⟨tstr, py_strip (String.intercalate " " segs)⟩] },
            some ⟨s.audio_buffer,
              FinalResult.entryAdded ⟨tstr, py_strip (String.intercalate " " segs)⟩⟩)) ∧
      (¬ emit_ok (py_strip (String.intercalate " " segs)) →
        finalize_utterance m s tstr =
          (s, some ⟨s.audio_buffer, FinalResult.noSpeech⟩))) ∧
    ((finalize_utterance m s tstr).1.transcript ≠ s.transcript →
      ∃ segs, m s.audio_buffer.flatten = Except.ok segs ∧
        emit_ok (py_strip (String.intercalate " " segs)) ∧
        (finalize_utterance m s tstr).1.transcript =
          s.transcript ++ [⟨tstr, py_strip (String.intercalate " " segs)⟩]) := by
  constructor
  · intro segs hbuf hdur hok
    exact finalize_ok m s tstr segs hbuf hdur hok
  · intro hne
    rcases finalize_shape m s tstr with ⟨_, h1⟩ | ⟨r, h1⟩ | ⟨segs, hm, hemit, h1⟩
    · rw [h1] at hne; exact absurd rfl hne
    · rw [h1] at hne; exact absurd rfl hne
    · exact ⟨segs, hm, hemit, by rw [h1]; simp [save_transcript_json]⟩

/-- Witness for C5: a 0.3 s buffer whose engine returns one fragment
"hello", which passes the filter and is appended. -/
theorem c5_witness :
    finalize_utterance model0
        ⟨[List.replicate 4800 (0 : ℚ)], none, true, [], dump_transcript []⟩ "10:00:00" =
      (save_transcript_json
        { (⟨[List.replicate 4800 (0 : ℚ)], none, true, [], dump_transcript []⟩ : WorkerState)
          with transcript :=
            [] ++ [⟨"10:00:00", py_strip (String.intercalate " " ["hello"])⟩] },
        some ⟨[List.replicate 4800 (0 : ℚ)],
          FinalResult.entryAdded ⟨"10:00:00", py_strip (String.intercalate " " ["hello"])⟩⟩) :=
  ((c5_entry_append_filter model0
      ⟨[List.replicate 4800 (0 : ℚ)], none, true, [], dump_transcript []⟩ "10:00:00").1
    ["hello"] buf_rep_pos dur_rep_ok rfl).1 emit_ok_hello

/-- C6: if the recognition engine fails for an utterance, the failure is
caught and surfaced as a logged engineError report, no transcript entry is
appended and transcript and snapshot are unchanged, the engine state is
fully reset, and the worker loop goes on to process the remaining input —
the run is total, so the failure never terminates the session. -/
theorem c6_recognition_failure (m : RecModel) (s : WorkerState)
    (ev : FrameEvent) (t0 : ℚ) (msg : String) (hh : s.heard_speech = true)
    (hsil : ¬ is_loud ev.chunk) (ht : s.silence_start = some t0)
    (hgt : SILENCE_DURATION < ev.now - t0)
    (hdur : MIN_AUDIO_LENGTH ≤
      (((s.audio_buffer ++ [ev.chunk]).flatten.length : ℚ) / SAMPLE_RATE))
    (herr : m ((s.audio_buffer ++ [ev.chunk]).flatten) = Except.error msg) :
    worker_step m s ev =
      (⟨[], none, false, s.transcript, s.snapshot⟩,
        some ⟨s.audio_buffer ++ [ev.chunk], FinalResult.engineError msg⟩) ∧
    report_of (FinalResult.engineError msg) =
      some ("Transcription error: " ++ msg) ∧
    ∀ rest, transcription_worker m s (ev :: rest) =
      ((transcription_worker m ⟨[], none, false, s.transcript, s.snapshot⟩ rest).1,
        ⟨s.audio_buffer ++ [ev.chunk], FinalResult.engineError msg⟩ ::
          (transcription_worker m
            ⟨[], none, false, s.transcript, s.snapshot⟩ rest).2) := by
  have hfe : finalize_utterance m
      { s with audio_buffer := s.audio_buffer ++ [ev.chunk] } ev.tstr =
      ({ s with audio_buffer := s.audio_buffer ++ [ev.chunk] },
        some ⟨s.audio_buffer ++ [ev.chunk], FinalResult.engineError msg⟩) :=
    finalize_error m { s with audio_buffer := s.audio_buffer ++ [ev.chunk] }
      ev.tstr msg (by simp) (by simpa using hdur) (by simpa using herr)
  have hstep : worker_step m s ev =
      (⟨[], none, false, s.transcript, s.snapshot⟩,
        some ⟨s.audio_buffer ++ [ev.chunk], FinalResult.engineError msg⟩) := by
    rw [worker_step_silent_finalize m s ev t0 hh hsil ht hgt, hfe]
  refine ⟨hstep, rfl, ?_⟩
  intro rest
  rw [transcription_worker_cons, hstep]
  simp

/-- Witness for C6: a 4801-sample buffer whose engine always fails. -/
theorem c6_witness :
    worker_step model_err
      ⟨[List.replicate 4800 (0 : ℚ)], some 0, true, [], dump_transcript []⟩ ev_sil2 =
      (⟨[], none, false, [], dump_transcript []⟩,
        some ⟨[List.replicate 4800 (0 : ℚ)] ++ [ev_sil2.chunk],
          FinalResult.engineError "boom"⟩) :=
  (c6_recognition_failure model_err
    ⟨[List.replicate 4800 (0 : ℚ)], some 0, true, [], dump_transcript []⟩
    ev_sil2 0 "boom" rfl not_loud_ev_sil2 rfl expired_sil2 dur_rep_chunk_ok rfl).1

/-- C7: every append rewrites the snapshot with the entire log, so after
any run the snapshot is the serialized transcript, it decodes back to
exactly the ordered transcript appended so far (round trip), and the
transcript at any intermediate point is a prefix of the transcript after
any continuation of the session. -/
theorem c7_snapshot_roundtrip (m : RecModel) (evs1 evs2 : List FrameEvent) :
    (transcription_worker m initState evs1).1.snapshot =
      dump_transcript (transcription_worker m initState evs1).1.transcript ∧
    decode_transcript ((transcription_worker m initState evs1).1.snapshot) =
      some ((transcription_worker m initState evs1).1.transcript) ∧
    ∃ rest, (transcription_worker m initState (evs1 ++ evs2)).1.transcript =
      (transcription_worker m initState evs1).1.transcript ++ rest := by
  have hsnap := run_snapshot m evs1 initState rfl
  refine ⟨hsnap, by rw [hsnap, decode_dump], ?_⟩
  rw [transcription_worker_append m evs1 evs2 initState]
  rcases run_transcript_extends m evs2 (transcription_worker m initState evs1).1
    with ⟨r, hr⟩
  exact ⟨r, by simpa using hr⟩

/-- Counterexample for C8: with no speech between start and stop the log
is empty at session end, and no export at all is produced — the export is
skipped, so no "export with zero entries" exists; the next session starts
from an empty log with the snapshot rewritten to the empty array. -/
theorem c8_counterexample :
    (transcription_worker model0 initState [ev_sil1, ev_sil2]).1.transcript = [] ∧
    (session_end "2026-01-01 00:00"
      ((transcription_worker model0 initState [ev_sil1, ev_sil2]).1.transcript)).2 =
      none ∧
    (session_end "2026-01-01 00:00"
      ((transcription_worker model0 initState [ev_sil1, ev_sil2]).1.transcript)).1 =
      ([], dump_transcript []) := by
  have h := run_all_silent model0 [ev_sil1, ev_sil2] initState rfl all_sil12
  refine ⟨by rw [h]; rfl, by rw [h]; rfl, by rw [h]; rfl⟩

/-- C8 as amended: a start immediately followed by a stop with no speech
leaves an empty log; the session-end sequence (a total function, hence no
crash) skips the export — producing none instead of an empty export — and
leaves the next session with an empty transcript log and the snapshot
rewritten to the empty array. -/
theorem c8_empty_session_no_export (m : RecModel) (evs : List FrameEvent)
    (dateStr : String) (hsil : ∀ ev ∈ evs, ¬ is_loud ev.chunk) :
    (transcription_worker m initState evs).1.transcript = [] ∧
    session_end dateStr ((transcription_worker m initState evs).1.transcript) =
      (([], dump_transcript []), none) := by
  have h := run_all_silent m evs initState rfl hsil
  refine ⟨by rw [h]; rfl, by rw [h]; rfl⟩

/-- Witness for C8 as amended. -/
theorem c8_witness :
    (transcription_worker model0 initState [ev_sil1]).1.transcript = [] ∧
    session_end "2026-01-01 00:00"
      ((transcription_worker model0 initState [ev_sil1]).1.transcript) =
      (([], dump_transcript []), none) :=
  c8_empty_session_no_export model0 [ev_sil1] "2026-01-01 00:00" all_sil1

/-- Counterexample for C9: a GET for the root path — a path other than the
three API endpoints — is answered 200 with the viewer asset, not 404. -/
theorem c9_counterexample :
    (do_GET st0 files0 "/").status = 200 ∧
    (do_GET st0 files0 "/").status ≠ 404 := by
  exact ⟨rfl, by decide⟩

/-- C9 as amended: GET /api/status answers 200 with the recording flag;
POST /api/start sets recording and the start signal and answers 200
started; POST /api/stop clears recording, sets the stop signal and
answers 200 stopped; any other POST path is 404; a GET for / or
/index.html serves the viewer asset, and a GET for any other non-API path
is served from the static directory (200 when present, 404 when not). -/
theorem c9_http_surface (st : AppState) (files : String → Option String)
    (path : String) :
    do_GET st files "/api/status" =
      send_json (Json.obj [("recording", Json.bool st.recording)]) ∧
    do_POST st "/api/start" =
      ({ st with recording := true, start_event := true },
        send_json (Json.obj [("status", Json.str "started")])) ∧
    do_POST st "/api/stop" =
      ({ st with recording := false, stop_event := true },
        send_json (Json.obj [("status", Json.str "stopped")])) ∧
    (path ≠ "/api/start" → path ≠ "/api/stop" →
      do_POST st path = (st, ⟨404, none, none⟩)) ∧
    (path = "/" ∨ path = "/index.html" →
      do_GET st files path = serve_static files "/viewer.html") ∧
    (path ≠ "/" → path ≠ "/index.html" → path ≠ "/api/status" →
      do_GET st files path = serve_static files path) := by
  refine ⟨rfl, rfl, rfl, ?_, ?_, ?_⟩
  · intro h1 h2
    unfold do_POST
    rw [if_neg h1, if_neg h2]
  · intro h
    unfold do_GET
    rw [if_pos h]
  · intro h1 h2 h3
    unfold do_GET
    rw [if_neg (by simp [h1, h2]), if_neg h3]

/-- Witness for C9 as amended: an unknown POST path is 404. -/
theorem c9_witness : do_POST st0 "/bogus" = (st0, ⟨404, none, none⟩) :=
  (c9_http_surface st0 files0 "/bogus").2.2.2.1 (by decide) (by decide)

/-- C10: in every state reachable from the session start, the
speech-observed flag implies a non-empty buffer; a finalization is
produced only while processing a below-threshold frame after speech was
observed, with a non-empty handed-over buffer; whenever the finalize
branch is reached its outcome is produced (the non-empty guard holds);
and after every finalization the engine state is fully reset. -/
theorem c10_worker_invariants (m : RecModel) :
    (∀ evs, (transcription_worker m initState evs).1.heard_speech = true →
      (transcription_worker m initState evs).1.audio_buffer ≠ []) ∧
    (∀ s ev fin, (worker_step m s ev).2 = some fin →
      ¬ is_loud ev.chunk ∧ s.heard_speech = true ∧ fin.buffer ≠ [] ∧
      (worker_step m s ev).1.audio_buffer = [] ∧
      (worker_step m s ev).1.silence_start = none ∧
      (worker_step m s ev).1.heard_speech = false) ∧
    (∀ s ev t0, ¬ is_loud ev.chunk → s.heard_speech = true →
      s.silence_start = some t0 → SILENCE_DURATION < ev.now - t0 →
      (worker_step m s ev).2 ≠ none) := by
  refine ⟨fun evs => run_heard_nonempty m evs initState (by simp [initState]),
    ?_, ?_⟩
  · intro s ev fin h
    obtain ⟨hl, hh, hbuf, h1, h2, h3⟩ := step_out_some m s ev fin h
    exact ⟨hl, hh, by simp [hbuf], h1, h2, h3⟩
  · intro s ev t0 hl hh ht hgt
    rw [worker_step_silent_finalize m s ev t0 hh hl ht hgt]
    obtain ⟨fin, hfin, _⟩ := finalize_out_isSome m
      { s with audio_buffer := s.audio_buffer ++ [ev.chunk] } ev.tstr (by simp)
    simp [hfin]

/-- Witness for C10: a concrete expired-timer state produces a
finalization. -/
theorem c10_witness :
    (worker_step model0 ⟨[[1]], some 0, true, [], dump_transcript []⟩ ev_sil2).2 ≠
      none :=
  (c10_worker_invariants model0).2.2
    ⟨[[1]], some 0, true, [], dump_transcript []⟩ ev_sil2 0 not_loud_ev_sil2 rfl
    rfl expired_sil2

end LiveTranscriber
